import Mathlib

/-
Verification of the goq job-queue client (goq.go) against its
natural-language specification.

The embedding models the Go source shallowly:
  - Go byte strings (the raw job payloads handed to Enqueue and popped by
    the dispatcher) are lists of naturals below 256;
  - the Redis broker is a state holding the named lists and the key-value
    store, and every broker operation threads that state explicitly;
  - fallible broker calls take an explicit failure flag, so that a theorem
    can speak about the success path and each failure path;
  - the package-level redis client pointer is an Option: none models the
    client before any successful New, matching the nil pointer in the
    source, and calling a broker method through none is a nil dereference
    modelled as the panicked outcome;
  - base32.StdEncoding.EncodeToString is embedded bit-for-bit (RFC 4648
    standard alphabet with padding); a decoder, used only in proofs, shows
    the encoding is injective;
  - json.Marshal of the Status record produces its canonical encoding and
    json.Unmarshal is a parser of that canonical form, rejecting anything
    else (the uint8 range checks included).
-/

/-! ### Base32 standard encoding (encoding/base32, StdEncoding with padding) -/

/-- The RFC 4648 standard base32 alphabet: the digit d (below 32) as a
character of ABCDEFGHIJKLMNOPQRSTUVWXYZ234567. -/
def b32char (d : Nat) : Char :=
  match d with
  | 0 => 'A' | 1 => 'B' | 2 => 'C' | 3 => 'D' | 4 => 'E' | 5 => 'F' | 6 => 'G' | 7 => 'H'
  | 8 => 'I' | 9 => 'J' | 10 => 'K' | 11 => 'L' | 12 => 'M' | 13 => 'N' | 14 => 'O' | 15 => 'P'
  | 16 => 'Q' | 17 => 'R' | 18 => 'S' | 19 => 'T' | 20 => 'U' | 21 => 'V' | 22 => 'W' | 23 => 'X'
  | 24 => 'Y' | 25 => 'Z' | 26 => '2' | 27 => '3' | 28 => '4' | 29 => '5' | 30 => '6' | 31 => '7'
  | _ => 'A'

/-- Inverse of the alphabet map, 0 on characters outside the alphabet.
Used only by the proof-side decoder. -/
def b32val (c : Char) : Nat :=
  match c with
  | 'A' => 0 | 'B' => 1 | 'C' => 2 | 'D' => 3 | 'E' => 4 | 'F' => 5 | 'G' => 6 | 'H' => 7
  | 'I' => 8 | 'J' => 9 | 'K' => 10 | 'L' => 11 | 'M' => 12 | 'N' => 13 | 'O' => 14 | 'P' => 15
  | 'Q' => 16 | 'R' => 17 | 'S' => 18 | 'T' => 19 | 'U' => 20 | 'V' => 21 | 'W' => 22 | 'X' => 23
  | 'Y' => 24 | 'Z' => 25 | '2' => 26 | '3' => 27 | '4' => 28 | '5' => 29 | '6' => 30 | '7' => 31
  | _ => 0

/-- A 5-byte group as a 40-bit quantum: b0 is the most significant byte
(the multipliers are 2 to the 32, 24, 16, 8, 0). -/
def encQuantum (b0 b1 b2 b3 b4 : Nat) : Nat :=
  b0 * 4294967296 + b1 * 16777216 + b2 * 65536 + b3 * 256 + b4

/-- The 40-bit quantum read back from its eight base-32 digits (the
multipliers are 32 to the 7, 6, ..., 0). Proof-side only. -/
def decQuantum (d0 d1 d2 d3 d4 d5 d6 d7 : Nat) : Nat :=
  d0 * 34359738368 + d1 * 1073741824 + d2 * 33554432 + d3 * 1048576 +
  d4 * 32768 + d5 * 1024 + d6 * 32 + d7

/-- base32.StdEncoding: each full 5-byte group becomes 8 alphabet
characters; a final group of r bytes (r = 1, 2, 3, 4) becomes 2, 4, 5 or 7
characters followed by 6, 4, 3 or 1 padding characters, the bytes being
zero-extended to a full quantum first. -/
def base32encodeBytes : List Nat → List Char
  | [] => []
  | [b0] =>
      [b32char (encQuantum b0 0 0 0 0 / 34359738368 % 32),
       b32char (encQuantum b0 0 0 0 0 / 1073741824 % 32),
       '=', '=', '=', '=', '=', '=']
  | [b0, b1] =>
      [b32char (encQuantum b0 b1 0 0 0 / 34359738368 % 32),
       b32char (encQuantum b0 b1 0 0 0 / 1073741824 % 32),
       b32char (encQuantum b0 b1 0 0 0 / 33554432 % 32),
       b32char (encQuantum b0 b1 0 0 0 / 1048576 % 32),
       '=', '=', '=', '=']
  | [b0, b1, b2] =>
      [b32char (encQuantum b0 b1 b2 0 0 / 34359738368 % 32),
       b32char (encQuantum b0 b1 b2 0 0 / 1073741824 % 32),
       b32char (encQuantum b0 b1 b2 0 0 / 33554432 % 32),
       b32char (encQuantum b0 b1 b2 0 0 / 1048576 % 32),
       b32char (encQuantum b0 b1 b2 0 0 / 32768 % 32),
       '=', '=', '=']
  | [b0, b1, b2, b3] =>
      [b32char (encQuantum b0 b1 b2 b3 0 / 34359738368 % 32),
       b32char (encQuantum b0 b1 b2 b3 0 / 1073741824 % 32),
       b32char (encQuantum b0 b1 b2 b3 0 / 33554432 % 32),
       b32char (encQuantum b0 b1 b2 b3 0 / 1048576 % 32),
       b32char (encQuantum b0 b1 b2 b3 0 / 32768 % 32),
       b32char (encQuantum b0 b1 b2 b3 0 / 1024 % 32),
       b32char (encQuantum b0 b1 b2 b3 0 / 32 % 32),
       '=']
  | b0 :: b1 :: b2 :: b3 :: b4 :: rest =>
      [b32char (encQuantum b0 b1 b2 b3 b4 / 34359738368 % 32),
       b32char (encQuantum b0 b1 b2 b3 b4 / 1073741824 % 32),
       b32char (encQuantum b0 b1 b2 b3 b4 / 33554432 % 32),
       b32char (encQuantum b0 b1 b2 b3 b4 / 1048576 % 32),
       b32char (encQuantum b0 b1 b2 b3 b4 / 32768 % 32),
       b32char (encQuantum b0 b1 b2 b3 b4 / 1024 % 32),
       b32char (encQuantum b0 b1 b2 b3 b4 / 32 % 32),
       b32char (encQuantum b0 b1 b2 b3 b4 % 32)] ++ base32encodeBytes rest

/-- base32.StdEncoding.EncodeToString on the payload bytes: the job
identity of goq.go (lines 115 and 146). -/
def base32encode (bs : List Nat) : String :=
  String.mk (base32encodeBytes bs)

/-- Proof-side decoder. It only has to be a left inverse of the encoder on
valid byte lists, so characters outside the alphabet may decode to
anything. The count of padding characters, read off the positions 2, 4, 5
and 7, tells how many bytes the final group carried. -/
def base32decodeBytes : List Char → List Nat
  | c0 :: c1 :: c2 :: c3 :: c4 :: c5 :: c6 :: c7 :: rest =>
      if c2 = '=' then
        [decQuantum (b32val c0) (b32val c1) 0 0 0 0 0 0 / 4294967296 % 256]
      else if c4 = '=' then
        [decQuantum (b32val c0) (b32val c1) (b32val c2) (b32val c3) 0 0 0 0 / 4294967296 % 256,
         decQuantum (b32val c0) (b32val c1) (b32val c2) (b32val c3) 0 0 0 0 / 16777216 % 256]
      else if c5 = '=' then
        [decQuantum (b32val c0) (b32val c1) (b32val c2) (b32val c3) (b32val c4) 0 0 0
           / 4294967296 % 256,
         decQuantum (b32val c0) (b32val c1) (b32val c2) (b32val c3) (b32val c4) 0 0 0
           / 16777216 % 256,
         decQuantum (b32val c0) (b32val c1) (b32val c2) (b32val c3) (b32val c4) 0 0 0
           / 65536 % 256]
      else if c7 = '=' then
        [decQuantum (b32val c0) (b32val c1) (b32val c2) (b32val c3) (b32val c4) (b32val c5)
           (b32val c6) 0 / 4294967296 % 256,
         decQuantum (b32val c0) (b32val c1) (b32val c2) (b32val c3) (b32val c4) (b32val c5)
           (b32val c6) 0 / 16777216 % 256,
         decQuantum (b32val c0) (b32val c1) (b32val c2) (b32val c3) (b32val c4) (b32val c5)
           (b32val c6) 0 / 65536 % 256,
         decQuantum (b32val c0) (b32val c1) (b32val c2) (b32val c3) (b32val c4) (b32val c5)
           (b32val c6) 0 / 256 % 256]
      else
        [decQuantum (b32val c0) (b32val c1) (b32val c2) (b32val c3) (b32val c4) (b32val c5)
           (b32val c6) (b32val c7) / 4294967296 % 256,
         decQuantum (b32val c0) (b32val c1) (b32val c2) (b32val c3) (b32val c4) (b32val c5)
           (b32val c6) (b32val c7) / 16777216 % 256,
         decQuantum (b32val c0) (b32val c1) (b32val c2) (b32val c3) (b32val c4) (b32val c5)
           (b32val c6) (b32val c7) / 65536 % 256,
         decQuantum (b32val c0) (b32val c1) (b32val c2) (b32val c3) (b32val c4) (b32val c5)
           (b32val c6) (b32val c7) / 256 % 256,
         decQuantum (b32val c0) (b32val c1) (b32val c2) (b32val c3) (b32val c4) (b32val c5)
           (b32val c6) (b32val c7) % 256] ++ base32decodeBytes rest
  | _ => []

/-! ### Status records and their canonical JSON form (encoding/json) -/

/-- The Status struct of goq.go (lines 198-201): Code and Progress are Go
uint8 fields, embedded as naturals; the source never computes on them, so
no wraparound arises and every value the Go program can hold is below 256. -/
structure Status where
  Code : Nat
  Progress : Nat
deriving DecidableEq, Repr

/-- A decimal digit as a character. -/
def decDigitChar (d : Nat) : Char :=
  match d with
  | 0 => '0' | 1 => '1' | 2 => '2' | 3 => '3' | 4 => '4'
  | 5 => '5' | 6 => '6' | 7 => '7' | 8 => '8' | 9 => '9'
  | _ => '*'

/-- A character read back as a decimal digit. -/
def charDigit (c : Char) : Option Nat :=
  if '0' ≤ c ∧ c ≤ '9' then some (c.toNat - 48) else none

/-- The decimal digits of n, most significant first. The status fields are
Go uint8 values, so three digits always suffice; the closed form keeps the
definition reducible by the kernel. -/
def decDigits (n : Nat) : List Nat :=
  if n < 10 then [n]
  else if n < 100 then [n / 10, n % 10]
  else [n / 100, n / 10 % 10, n % 10]

/-- The value of a most-significant-first digit list. -/
def digitsVal (ds : List Nat) : Nat :=
  ds.foldl (fun a d => a * 10 + d) 0

/-- The characters of the JSON text up to the Code value. -/
def litCode : List Char := ['\x7b', '"', 'C', 'o', 'd', 'e', '"', ':']

/-- The characters of the JSON text between the Code value and the
Progress value. -/
def litProg : List Char := [',', '"', 'P', 'r', 'o', 'g', 'r', 'e', 's', 's', '"', ':']

/-- The characters of the JSON text after the Progress value. -/
def litEnd : List Char := ['\x7d']

/-- json.Marshal of a Status value: its canonical JSON encoding, with the
two uint8 fields printed in decimal. Marshalling a Status never fails in
the source, so this is a total function. -/
def statusMarshal (s : Status) : String :=
  String.mk (litCode ++ (decDigits s.Code).map decDigitChar ++
    litProg ++ (decDigits s.Progress).map decDigitChar ++ litEnd)

/-- Strip an expected literal from the front of the input, or fail. -/
def dropLit : List Char → List Char → Option (List Char)
  | [], cs => some cs
  | _ :: _, [] => none
  | p :: ps, c :: cs => if c = p then dropLit ps cs else none

/-- The longest run of decimal digits at the front of the input, and what
follows it. -/
def takeDigits : List Char → List Nat × List Char
  | [] => ([], [])
  | c :: cs =>
    match charDigit c with
    | some d => (d :: (takeDigits cs).1, (takeDigits cs).2)
    | none => ([], c :: cs)

/-- json.Unmarshal into a Status value: parses the canonical JSON form
produced by statusMarshal and rejects everything else, including values
outside the uint8 range (Go json.Unmarshal fails on a number overflowing
the uint8 field). -/
def statusUnmarshal (s : String) : Option Status :=
  (dropLit litCode s.toList).bind fun r1 =>
    let p1 := takeDigits r1
    if p1.1 = [] then none
    else
      (dropLit litProg p1.2).bind fun r3 =>
        let p2 := takeDigits r3
        if p2.1 = [] then none
        else if p2.2 = litEnd then
          if digitsVal p1.1 ≤ 255 then
            if digitsVal p2.1 ≤ 255 then
              some { Code := digitsVal p1.1, Progress := digitsVal p2.1 }
            else none
          else none
        else none

/-- The head of the input is not a decimal digit (or the input is empty). -/
def headNotDigit : List Char → Prop
  | [] => True
  | c :: _ => charDigit c = none

/-! ### The broker model and the goq operations -/

/-- The Redis broker as the goq client sees it: the named lists (RPush and
BLPop act on them) and the key-value store (Set and Get act on it). List
entries are raw job payload byte strings. -/
structure RedisState where
  lists : String → List (List Nat)
  kv : String → Option String

/-- client.RPush(queueName, jobJSON): append the payload at the tail of
the named list. -/
def rpush (st : RedisState) (queueName : String) (v : List Nat) : RedisState :=
  { st with lists := fun k => if k = queueName then st.lists k ++ [v] else st.lists k }

/-- client.Set(key, value, 0): upsert into the key-value store (TTL 0
means no expiry). -/
def redisSet (st : RedisState) (key value : String) : RedisState :=
  { st with kv := fun k => if k = key then some value else st.kv k }

/-- How a call into the Go client returns: a value, an error value, or a
panic from dereferencing the nil package-level client (goq.go line 16
leaves client nil until New runs). -/
inductive GoRet (α : Type) where
  | ok : α → GoRet α
  | err : String → GoRet α
  | panicked : GoRet α
deriving DecidableEq, Repr

/-- JOB_STATUS_PREFIX of goq.go (line 12). -/
def JOB_STATUS_PREFIX : String := "goq:queue:job:status:"

/-- The Job struct of goq.go (lines 171-175): identity, raw payload and
the in-memory status record. -/
structure Job where
  ID : String
  JSON : List Nat
  Status : Status
deriving DecidableEq, Repr

/-- The QueueStatus struct of goq.go (lines 78-80). -/
structure QueueStatus where
  QueueLength : Nat
deriving DecidableEq, Repr

/-- The key under which Enqueue stores the initial status record
(goq.go lines 115-117). -/
def enqueueStatusKey (jobJSON : List Nat) : String :=
  JOB_STATUS_PREFIX ++ base32encode jobJSON

/-- The key under which a worker looks the status record up
(goq.go lines 146-148). -/
def workStatusKey (jobJSON : List Nat) : String :=
  JOB_STATUS_PREFIX ++ base32encode jobJSON

/-- The key SetStatus and GetStatus use for a given Job
(goq.go lines 186 and 190). -/
def jobStatusKey (j : Job) : String :=
  JOB_STATUS_PREFIX ++ j.ID

/-- Queue.QueueStatus (goq.go lines 82-95): with an initialized client,
LLen of the configured queue name, wrapped into a QueueStatus value; the
llenFails flag injects a broker failure of the LLen call. With no client,
the no-client error. -/
def queueStatus (client : Option RedisState) (queueName : String) (llenFails : Bool) :
    GoRet QueueStatus × Option RedisState :=
  match client with
  | some st =>
    if llenFails then (.err "llen failed", some st)
    else (.ok { QueueLength := (st.lists queueName).length }, some st)
  | none => (.err "Failed to queue status: no initialized client", none)

/-- Queue.Enqueue (goq.go lines 98-123): RPush the payload onto the named
list, marshal the initial status (code 0, progress 0; marshalling cannot
fail), derive the identity from the payload bytes, Set the status record
under the namespaced key, and return the identity. pushFails and setFails
inject broker failures of the two calls. The nil client is dereferenced by
RPush with no guard. -/
def goqEnqueue (client : Option RedisState) (queueName : String) (jobJSON : List Nat)
    (pushFails setFails : Bool) : GoRet String × Option RedisState :=
  match client with
  | none => (.panicked, none)
  | some st =>
    if pushFails then (.err "rpush failed", some st)
    else
      let st1 := rpush st queueName jobJSON
      let statusJSON := statusMarshal { Code := 0, Progress := 0 }
      let id := base32encode jobJSON
      if setFails then (.err "set failed", some st1)
      else (.ok id, some (redisSet st1 (enqueueStatusKey jobJSON) statusJSON))

/-- What one iteration of the worker loop does with the payload it
received from the job channel (goq.go lines 143-168): which callback runs,
and with what. -/
inductive WorkStepResult where
  | errored : String → WorkStepResult
  | processed : Job → WorkStepResult
deriving DecidableEq, Repr

/-- One iteration of work (goq.go lines 142-169): derive the identity from
the payload bytes, Get the status record (getFails injects a broker
failure; an absent key is the redis.Nil error), unmarshal it, and either
hand the error handler a wrapped error and continue, or hand the Processor
the constructed Job. The broker state is returned unchanged: the worker
never writes to the broker, so a skipped payload is not requeued. -/
def workIteration (st : RedisState) (jobJSON : List Nat) (getFails : Bool) :
    WorkStepResult × RedisState :=
  let id := base32encode jobJSON
  if getFails then
    (.errored ("Failed to get status of job " ++ id ++ " : get failed"), st)
  else
    match st.kv (workStatusKey jobJSON) with
    | none => (.errored ("Failed to get status of job " ++ id ++ " : redis: nil"), st)
    | some statusJSON =>
      match statusUnmarshal statusJSON with
      | none =>
        (.errored ("Failed to unmarshal status of job " ++ id ++ " : invalid JSON"), st)
      | some status => (.processed { ID := id, JSON := jobJSON, Status := status }, st)

/-- Job.SetStatus (goq.go lines 177-187): first overwrite the in-memory
Status fields, then marshal them (cannot fail) and Set the record under
the namespaced key; setFails injects a broker failure of the Set. The
returned Job carries the mutated in-memory record whatever the outcome. -/
def jobSetStatus (client : Option RedisState) (j : Job) (code progress : Nat)
    (setFails : Bool) : Job × GoRet Unit × Option RedisState :=
  let j1 := { j with Status := { Code := code, Progress := progress } }
  let statusJSON := statusMarshal j1.Status
  match client with
  | none => (j1, .panicked, none)
  | some st =>
    if setFails then (j1, .err "set failed", some st)
    else (j1, .ok (), some (redisSet st (jobStatusKey j) statusJSON))

/-- Job.GetStatus (goq.go lines 189-196): Get the record under the
namespaced key (getFails injects a broker failure; an absent key is the
redis.Nil error) and unmarshal it into the in-memory Status. -/
def jobGetStatus (client : Option RedisState) (j : Job) (getFails : Bool) :
    Job × GoRet Unit × Option RedisState :=
  match client with
  | none => (j, .panicked, none)
  | some st =>
    if getFails then (j, .err "get failed", some st)
    else
      match st.kv (jobStatusKey j) with
      | none => (j, .err "redis: nil", some st)
      | some dataJSON =>
        match statusUnmarshal dataJSON with
        | none => (j, .err "invalid JSON", some st)
        | some s => ({ j with Status := s }, .ok (), some st)

/-- What one BLPop of the dispatch loop in Run returns (goq.go line 132):
an error, or the two-element slice holding the list name and the popped
payload. -/
inductive PopResult where
  | popErr : String → PopResult
  | popped : String → List Nat → PopResult
deriving DecidableEq, Repr

/-- The payload a successful pop carries. -/
def popVal : PopResult → Option (List Nat)
  | .popped _ v => some v
  | .popErr _ => none

/-- The message a failed pop carries. -/
def popFailure : PopResult → Option String
  | .popErr m => some m
  | .popped _ _ => none

/-- The body of the dispatch loop in Run (goq.go lines 129-139), folded
over the values already gathered: a pop error goes to the error handler
(second component) and the loop continues; a popped payload (element 1 of
the two-element slice) goes into the job channel (first component) and the
loop continues. No alternative exits the loop. -/
def runStep (acc : List (List Nat) × List String) (r : PopResult) :
    List (List Nat) × List String :=
  match r with
  | .popErr m => (acc.1, acc.2 ++ [m])
  | .popped _ v => (acc.1 ++ [v], acc.2)

/-- The dispatch loop of Run over a finite trace of BLPop results: the
payloads forwarded into the job channel, in order, and the errors handed
to the error handler, in order. -/
def runDispatch (trace : List PopResult) : List (List Nat) × List String :=
  trace.foldl runStep ([], [])

/-! ### Helper lemmas and demonstration states for the claims -/

/-- A broker state with no list entries and no stored keys. -/
def st0 : RedisState := { lists := fun _ => [], kv := fun _ => none }

/-- A broker state whose every key holds a value that is not valid JSON. -/
def stBad : RedisState := { lists := fun _ => [], kv := fun _ => some "oops" }

/-- A demonstration job. -/
def j0 : Job := { ID := "J", JSON := [74], Status := { Code := 0, Progress := 0 } }

set_option maxHeartbeats 1600000 in
theorem b32val_b32char : ∀ d, d < 32 → b32val (b32char d) = d := by decide

set_option maxHeartbeats 1600000 in
theorem b32char_ne_pad : ∀ d, d < 32 → b32char d ≠ '=' := by decide

theorem b32val_b32char_mod (n : Nat) : b32val (b32char (n % 32)) = n % 32 :=
  b32val_b32char _ (Nat.mod_lt _ (by omega))

theorem b32char_mod_ne_pad (n : Nat) : b32char (n % 32) ≠ '=' :=
  b32char_ne_pad _ (Nat.mod_lt _ (by omega))

set_option maxHeartbeats 3200000 in
/-- The decoder undoes the encoder on every list of bytes. -/
theorem base32_decode_encode (bs : List Nat) (h : ∀ b ∈ bs, b < 256) :
    base32decodeBytes (base32encodeBytes bs) = bs := by
  induction bs using base32encodeBytes.induct with
  | case1 =>
    rfl
  | case2 b0 =>
    simp only [List.mem_singleton, forall_eq] at h
    rw [base32encodeBytes, base32decodeBytes, if_pos rfl]
    simp only [b32val_b32char_mod, decQuantum, encQuantum, List.cons.injEq, and_true]
    omega
  | case3 b0 b1 =>
    simp only [List.mem_cons, List.mem_singleton, forall_eq_or_imp, forall_eq] at h
    obtain ⟨h0, h1⟩ := h
    rw [base32encodeBytes, base32decodeBytes,
      if_neg (b32char_mod_ne_pad _), if_pos rfl]
    simp only [b32val_b32char_mod, decQuantum, encQuantum, List.cons.injEq, and_true]
    refine ⟨by omega, by omega⟩
  | case4 b0 b1 b2 =>
    simp only [List.mem_cons, List.mem_singleton, forall_eq_or_imp, forall_eq] at h
    obtain ⟨h0, h1, h2⟩ := h
    rw [base32encodeBytes, base32decodeBytes,
      if_neg (b32char_mod_ne_pad _), if_neg (b32char_mod_ne_pad _), if_pos rfl]
    simp only [b32val_b32char_mod, decQuantum, encQuantum, List.cons.injEq, and_true]
    refine ⟨by omega, by omega, by omega⟩
  | case5 b0 b1 b2 b3 =>
    simp only [List.mem_cons, List.mem_singleton, forall_eq_or_imp, forall_eq] at h
    obtain ⟨h0, h1, h2, h3⟩ := h
    rw [base32encodeBytes, base32decodeBytes,
      if_neg (b32char_mod_ne_pad _), if_neg (b32char_mod_ne_pad _),
      if_neg (b32char_mod_ne_pad _), if_pos rfl]
    simp only [b32val_b32char_mod, decQuantum, encQuantum, List.cons.injEq, and_true]
    refine ⟨by omega, by omega, by omega, by omega⟩
  | case6 b0 b1 b2 b3 b4 rest ih =>
    simp only [List.mem_cons, forall_eq_or_imp] at h
    obtain ⟨h0, h1, h2, h3, h4, hrest⟩ := h
    rw [base32encodeBytes]
    simp only [List.cons_append, List.nil_append]
    rw [base32decodeBytes,
      if_neg (b32char_mod_ne_pad _), if_neg (b32char_mod_ne_pad _),
      if_neg (b32char_mod_ne_pad _), if_neg (b32char_mod_ne_pad _)]
    rw [ih hrest]
    simp only [b32val_b32char_mod, decQuantum, encQuantum, List.cons_append,
      List.nil_append, List.cons.injEq]
    refine ⟨by omega, by omega, by omega, by omega, by omega, trivial⟩

/-- The job identity is injective on payload byte lists. -/
theorem base32encode_injective (p q : List Nat)
    (hp : ∀ b ∈ p, b < 256) (hq : ∀ b ∈ q, b < 256)
    (he : base32encode p = base32encode q) : p = q := by
  have hd : base32encodeBytes p = base32encodeBytes q := congrArg String.data he
  calc p = base32decodeBytes (base32encodeBytes p) := (base32_decode_encode p hp).symm
    _ = base32decodeBytes (base32encodeBytes q) := by rw [hd]
    _ = q := base32_decode_encode q hq

theorem statusMarshal_zero :
    statusMarshal { Code := 0, Progress := 0 } = "\x7b\"Code\":0,\"Progress\":0\x7d" := by
  decide

theorem decDigits_ne_nil (n : Nat) : decDigits n ≠ [] := by
  rw [decDigits]
  split
  · simp
  · split <;> simp

theorem decDigits_lt_ten (n : Nat) (hn : n ≤ 255) : ∀ d ∈ decDigits n, d < 10 := by
  rw [decDigits]
  split
  · simp; omega
  · split <;> (simp; omega)

theorem digitsVal_decDigits (n : Nat) (hn : n ≤ 255) : digitsVal (decDigits n) = n := by
  rw [decDigits]
  split
  · simp [digitsVal]
  · split <;> (simp [digitsVal]; omega)

theorem charDigit_decDigitChar : ∀ d, d < 10 → charDigit (decDigitChar d) = some d := by
  decide

theorem dropLit_append (lit rest : List Char) : dropLit lit (lit ++ rest) = some rest := by
  induction lit with
  | nil => rfl
  | cons c cs ih => simp [dropLit, ih]

theorem takeDigits_map_append (ds : List Nat) (hd : ∀ d ∈ ds, d < 10)
    (rest : List Char) (hr : headNotDigit rest) :
    takeDigits (ds.map decDigitChar ++ rest) = (ds, rest) := by
  induction ds with
  | nil =>
    simp only [List.map_nil, List.nil_append]
    cases rest with
    | nil => rfl
    | cons c cs =>
      have : charDigit c = none := hr
      simp [takeDigits, this]
  | cons d ds ih =>
    simp only [List.mem_cons, forall_eq_or_imp] at hd
    have h1 := charDigit_decDigitChar d hd.1
    have h2 := ih hd.2
    simp [takeDigits, h1, h2]

/-- The round trip of a Status record through its canonical JSON form is
the identity, for field values in the uint8 range. -/
theorem status_marshal_unmarshal (c p : Nat) (hc : c ≤ 255) (hp : p ≤ 255) :
    statusUnmarshal (statusMarshal { Code := c, Progress := p }) =
      some { Code := c, Progress := p } := by
  have htl : (statusMarshal { Code := c, Progress := p }).toList =
      litCode ++ ((decDigits c).map decDigitChar ++
        (litProg ++ ((decDigits p).map decDigitChar ++ litEnd))) := by
    simp [statusMarshal, String.toList]
  have hnp : headNotDigit (litProg ++ ((decDigits p).map decDigitChar ++ litEnd)) := by
    show charDigit ',' = none
    decide
  have hne : headNotDigit litEnd := by
    show charDigit '\x7d' = none
    decide
  rw [statusUnmarshal, htl, dropLit_append, Option.some_bind]
  simp only [takeDigits_map_append _ (decDigits_lt_ten c hc) _ hnp,
    if_neg (decDigits_ne_nil c), dropLit_append, Option.some_bind,
    takeDigits_map_append _ (decDigits_lt_ten p hp) _ hne,
    if_neg (decDigits_ne_nil p), if_pos rfl,
    digitsVal_decDigits c hc, digitsVal_decDigits p hp]
  simp [hc, hp]

theorem runDispatch_foldl (trace : List PopResult) :
    ∀ ch es, trace.foldl runStep (ch, es) =
      (ch ++ trace.filterMap popVal, es ++ trace.filterMap popFailure) := by
  induction trace with
  | nil => simp
  | cons r t ih =>
    intro ch es
    cases r with
    | popErr m => simp [runStep, popVal, popFailure, ih]
    | popped k v => simp [runStep, popVal, popFailure, ih]

theorem popVal_popFailure_length (trace : List PopResult) :
    (trace.filterMap popVal).length + (trace.filterMap popFailure).length = trace.length := by
  induction trace with
  | nil => rfl
  | cons r t ih => cases r <;> simp [popVal, popFailure] <;> omega

/-! ### The claims -/

/-- Claim C1: a successful Enqueue of payload P appends P at the tail of
the configured broker list, so the list length grows by one, stores the
status record with code 0 and progress 0 under the key derived from the
identity of P, and returns that identity. -/
theorem enqueue_appends_and_initializes_status
    (st : RedisState) (queueName : String) (p : List Nat) :
    ∃ st1 : RedisState,
      goqEnqueue (some st) queueName p false false = (.ok (base32encode p), some st1) ∧
      st1.lists queueName = st.lists queueName ++ [p] ∧
      (st1.lists queueName).length = (st.lists queueName).length + 1 ∧
      st1.kv (enqueueStatusKey p) = some (statusMarshal { Code := 0, Progress := 0 }) ∧
      statusUnmarshal (statusMarshal { Code := 0, Progress := 0 }) =
        some { Code := 0, Progress := 0 } := by
  refine ⟨_, rfl, ?_, ?_, ?_, ?_⟩
  · simp [redisSet, rpush]
  · simp [redisSet, rpush]
  · simp [redisSet]
  · exact status_marshal_unmarshal 0 0 (by omega) (by omega)

/-- Claim C2: the job identity is deterministic in the payload bytes, and
payloads with distinct bytes get distinct identities. -/
theorem job_identity_deterministic_and_injective (p q : List Nat)
    (hp : ∀ b ∈ p, b < 256) (hq : ∀ b ∈ q, b < 256) :
    base32encode p = base32encode p ∧
    (p ≠ q → base32encode p ≠ base32encode q) := by
  refine ⟨rfl, ?_⟩
  intro hne he
  exact hne (base32encode_injective p q hp hq he)

theorem job_identity_deterministic_and_injective_witness :
    (∀ b ∈ [(0 : Nat)], b < 256) ∧ (∀ b ∈ [(1 : Nat)], b < 256) ∧
    (base32encode [0] = base32encode [0] ∧
      ([(0 : Nat)] ≠ [1] → base32encode [0] ≠ base32encode [1])) :=
  ⟨by decide, by decide,
    job_identity_deterministic_and_injective [0] [1] (by decide) (by decide)⟩

/-- Claim C3: a successful SetStatus with code C and progress Pr followed
by GetStatus leaves the Job holding the Status with code C and progress
Pr: the serialize, store, load, deserialize round trip is the identity on
status records. -/
theorem setStatus_then_getStatus_roundtrip (st : RedisState) (j : Job) (c pr : Nat)
    (hc : c ≤ 255) (hpr : pr ≤ 255) :
    ∀ j1 st1, jobSetStatus (some st) j c pr false = (j1, .ok (), some st1) →
      ∃ j2, jobGetStatus (some st1) j1 false = (j2, .ok (), some st1) ∧
        j2.Status = { Code := c, Progress := pr } := by
  intro j1 st1 h
  rw [jobSetStatus] at h
  simp only [Bool.false_eq_true, if_false, Prod.mk.injEq] at h
  obtain ⟨hj, -, hst⟩ := h
  subst hj
  cases hst
  refine ⟨{ j with Status := { Code := c, Progress := pr } }, ?_, rfl⟩
  rw [jobGetStatus]
  simp only [Bool.false_eq_true, if_false]
  have hkv : (redisSet st (jobStatusKey j)
      (statusMarshal { Code := c, Progress := pr })).kv
      (jobStatusKey { j with Status := { Code := c, Progress := pr } }) =
      some (statusMarshal { Code := c, Progress := pr }) := by
    simp [redisSet, jobStatusKey]
  rw [hkv]
  simp only [status_marshal_unmarshal c pr hc hpr]

theorem setStatus_then_getStatus_roundtrip_witness :
    ((1 : Nat) ≤ 255) ∧ ((2 : Nat) ≤ 255) ∧
    (∃ j2, jobGetStatus
        (some (redisSet st0 (jobStatusKey j0) (statusMarshal { Code := 1, Progress := 2 })))
        { j0 with Status := { Code := 1, Progress := 2 } } false =
        (j2, .ok (),
          some (redisSet st0 (jobStatusKey j0) (statusMarshal { Code := 1, Progress := 2 }))) ∧
      j2.Status = { Code := 1, Progress := 2 }) :=
  ⟨by decide, by decide,
    setStatus_then_getStatus_roundtrip st0 j0 1 2 (by decide) (by decide) _ _ rfl⟩

/-- Claim C4: when the stored status value for a dequeued payload is
absent, or present but not valid JSON, the worker iteration hands the
error handler a descriptive wrapped error naming the job identity and does
not invoke the Processor; the broker state is untouched, so the payload is
not requeued. -/
theorem work_skips_payload_on_bad_status (st : RedisState) (p : List Nat) (gf : Bool) :
    (st.kv (workStatusKey p) = none →
      workIteration st p false =
        (.errored ("Failed to get status of job " ++ base32encode p ++ " : redis: nil"), st)) ∧
    (∀ v, st.kv (workStatusKey p) = some v → statusUnmarshal v = none →
      workIteration st p false =
        (.errored ("Failed to unmarshal status of job " ++ base32encode p ++ " : invalid JSON"),
          st)) ∧
    (workIteration st p gf).2 = st := by
  refine ⟨?_, ?_, ?_⟩
  · intro h
    simp [workIteration, h]
  · intro v hv hu
    simp [workIteration, hv, hu]
  · cases gf with
    | true => rfl
    | false =>
      cases hkv : st.kv (workStatusKey p) with
      | none => simp [workIteration, hkv]
      | some v =>
        cases hu : statusUnmarshal v with
        | none => simp [workIteration, hkv, hu]
        | some s => simp [workIteration, hkv, hu]

/-- Claim C5: with an initialized client, Enqueue fails exactly when the
RPush or the status-initializing Set fails (all four combinations listed),
and when only the Set fails the already-pushed payload stays at the tail
of the broker list: the push is not rolled back. -/
theorem enqueue_error_cases (st : RedisState) (queueName : String) (p : List Nat) :
    (∃ id st1, goqEnqueue (some st) queueName p false false = (.ok id, some st1)) ∧
    (∃ e st1, goqEnqueue (some st) queueName p true false = (.err e, some st1)) ∧
    (∃ e st1, goqEnqueue (some st) queueName p true true = (.err e, some st1)) ∧
    (∃ e st1, goqEnqueue (some st) queueName p false true = (.err e, some st1) ∧
      st1.lists queueName = st.lists queueName ++ [p]) := by
  refine ⟨⟨_, _, rfl⟩, ⟨_, _, rfl⟩, ⟨_, _, rfl⟩, ⟨_, _, rfl, ?_⟩⟩
  simp [rpush]

/-- Claim C6: over every finite trace of BLPop results the dispatch loop
of Run consumes every element and exits on none of them: each pop error
becomes one error-handler invocation and the loop continues, each popped
payload is forwarded into the job channel in order, and the counts of
forwarded payloads and handled errors sum to the whole trace. -/
theorem run_dispatch_consumes_every_pop (trace : List PopResult) :
    runDispatch trace = (trace.filterMap popVal, trace.filterMap popFailure) ∧
    (runDispatch trace).1.length + (runDispatch trace).2.length = trace.length := by
  have h : runDispatch trace = (trace.filterMap popVal, trace.filterMap popFailure) := by
    have := runDispatch_foldl trace [] []
    simpa [runDispatch] using this
  refine ⟨h, ?_⟩
  rw [h]
  exact popVal_popFailure_length trace

/-- Claim C7: the status key is the literal prefix followed by the
base32-standard encoding of the raw payload bytes, and the key Enqueue
writes, the key the worker reads, and the key SetStatus and GetStatus use
for the Job the worker constructed are all that same string. -/
theorem status_key_consistent (p : List Nat) :
    enqueueStatusKey p = "goq:queue:job:status:" ++ base32encode p ∧
    workStatusKey p = enqueueStatusKey p ∧
    (∀ st gf j st1, workIteration st p gf = (.processed j, st1) →
      jobStatusKey j = enqueueStatusKey p) := by
  refine ⟨rfl, rfl, ?_⟩
  intro st gf j st1 h
  cases gf with
  | true => simp [workIteration] at h
  | false =>
    cases hkv : st.kv (workStatusKey p) with
    | none => simp [workIteration, hkv] at h
    | some v =>
      cases hu : statusUnmarshal v with
      | none => simp [workIteration, hkv, hu] at h
      | some s =>
        simp only [workIteration, Bool.false_eq_true, if_false, hkv, hu,
          Prod.mk.injEq, WorkStepResult.processed.injEq] at h
        obtain ⟨hj, -⟩ := h
        subst hj
        rfl

/-- Claim C8: with an initialized client and a successful LLen, QueueStatus
returns the current length of the configured broker list; with no client
ever established it returns the no-client error and no length. -/
theorem queueStatus_length_or_no_client (st : RedisState) (queueName : String) (lf : Bool) :
    queueStatus (some st) queueName false =
      (.ok { QueueLength := (st.lists queueName).length }, some st) ∧
    queueStatus none queueName lf =
      (.err "Failed to queue status: no initialized client", none) :=
  ⟨rfl, rfl⟩

/-- Claim C9: QueueStatus is the only public operation guarding against an
uninitialized shared client: on a nil client it returns the no-client
error, while Enqueue, SetStatus and GetStatus dereference the nil client
and fault instead of returning an error. -/
theorem only_queueStatus_guards_nil_client (queueName : String) (p : List Nat)
    (pf sf gf lf : Bool) (j : Job) (c pr : Nat) :
    (queueStatus none queueName lf).1 =
      .err "Failed to queue status: no initialized client" ∧
    (goqEnqueue none queueName p pf sf).1 = .panicked ∧
    (jobSetStatus none j c pr sf).2.1 = .panicked ∧
    (jobGetStatus none j gf).2.1 = .panicked :=
  ⟨rfl, rfl, rfl, rfl⟩

/-- Claim C10: SetStatus overwrites the in-memory Status fields before the
store write, so when the Set fails it returns an error while the Job
already holds the new code and progress; the in-memory mutation is not
rolled back. -/
theorem setStatus_mutates_memory_before_failed_write (st : RedisState) (j : Job) (c pr : Nat) :
    jobSetStatus (some st) j c pr true =
      ({ j with Status := { Code := c, Progress := pr } }, .err "set failed", some st) ∧
    ((jobSetStatus (some st) j c pr true).1).Status = { Code := c, Progress := pr } :=
  ⟨rfl, rfl⟩
